import Mathlib

/-!
# Verification of `bigfoldergen` (src/main.rs)

A shallow embedding of the command-line tool that fills a destination
directory with random files until a target cumulative size is reached.

Modelling conventions:
* Randomness: the `rand` generator is modelled as a stream `r : Nat → Nat`
  together with a running position; every draw consumes one stream element.
  `rng.gen_range(lo..=hi)` on a non-empty range is modelled as
  `lo + rv % (hi - lo + 1)` (the support of the uniform distribution);
  on an empty range (`lo > hi`) the Rust call panics, modelled as `none`.
* Filesystem: an oracle `FsOracle` maps each requested operation to either
  success (`none`) or an io error carried as its message (`some msg`);
  `std::io::Error` values are modelled by their message strings, which is
  all the program ever propagates.
* Paths are lists of components; `Path::join` is list append.
* Machine integers (`u64`) are modelled as `Nat`; all sizes the tool can
  physically produce are far below `2^64`, and in a debug build overflow
  panics before any claim-relevant exit is reached.
-/

namespace BigFolderGen

/-- Model of `rng.gen_range(lo..=hi)` (rand crate): on a non-empty range the
draw `rv` is mapped into `[lo, hi]`; on an empty range Rust panics (`none`). -/
def genRange (lo hi rv : Nat) : Option Nat :=
  if lo ≤ hi then some (lo + rv % (hi - lo + 1)) else none

/-- Lines 90–93 of `main.rs`: `if max_file_size < min_file_size { eprintln!(…);
max_file_size = min_file_size; }`.  Returns the resulting `max_file_size`
together with the diagnostic lines written to stderr. -/
def repairMax (min_file_size max_file_size : Nat) : Nat × List String :=
  if max_file_size < min_file_size then
    (min_file_size, ["min is more than max! I'l make them equal."])
  else
    (max_file_size, [])

/-! ## The size parser

`parse_size` delegates to `byte_unit::Byte::parse_str(s, true)` (an external
crate, not part of this repository's sources) and converts its error through
the repository's `From<ParseError> for MyError` impl (lines 29–42). -/

/-- Model of `byte_unit::UnitParseError`: the offending character and the
characters that would have been accepted at that position. -/
structure UnitError where
  character : Char
  expected_characters : List Char
  deriving DecidableEq, Repr

/-- Model of `byte_unit::ParseError`: either a unit-suffix error or some
other (value) error, the latter carried as its rendered message. -/
inductive BUParseError where
  | Unit (e : UnitError)
  | Value (msg : String)
  deriving DecidableEq, Repr

/-- The unit-suffix first characters accepted by the parser model. -/
def expectedUnitFirstChars : List Char :=
  ['b', 'B', 'k', 'K', 'm', 'M', 'g', 'G', 't', 'T']

/-- Modelled from the spec: continuation of the unit grammar after a decimal
prefix letter (`k`/`m`/`g`/`t`), choosing the decimal multiplier `dec` or the
binary multiplier `bin` (`…iB` family), case-insensitively. -/
def parseUnitTail (dec bin : Nat) : List Char → Except UnitError Nat
  | [] => .ok dec
  | c :: rest =>
    if Char.toLower c = 'b' then
      match rest with
      | [] => .ok dec
      | c2 :: _ => .error ⟨c2, []⟩
    else if Char.toLower c = 'i' then
      match rest with
      | [] => .ok bin
      | c2 :: rest2 =>
        if Char.toLower c2 = 'b' then
          match rest2 with
          | [] => .ok bin
          | c3 :: _ => .error ⟨c3, []⟩
        else .error ⟨c2, ['b', 'B']⟩
    else .error ⟨c, ['b', 'B', 'i', 'I']⟩

/-- Modelled from the spec: the unit suffix grammar — empty (bytes), `B`,
or a decimal/binary order `K(i)B`, `M(i)B`, `G(i)B`, `T(i)B`,
case-insensitive.  An unrecognized character yields a `UnitError` naming it
and the characters accepted at that position (spec §4.1). -/
def parseUnit : List Char → Except UnitError Nat
  | [] => .ok 1
  | c :: rest =>
    if Char.toLower c = 'b' then
      match rest with
      | [] => .ok 1
      | c2 :: _ => .error ⟨c2, []⟩
    else if Char.toLower c = 'k' then parseUnitTail 1000 1024 rest
    else if Char.toLower c = 'm' then parseUnitTail 1000000 1048576 rest
    else if Char.toLower c = 'g' then parseUnitTail 1000000000 1073741824 rest
    else if Char.toLower c = 't' then parseUnitTail 1000000000000 1099511627776 rest
    else .error ⟨c, expectedUnitFirstChars⟩

/-- Decimal value of a digit string. -/
def digitsVal (cs : List Char) : Nat :=
  cs.foldl (fun a c => 10 * a + (c.toNat - 48)) 0

/-- Modelled from the spec: `byte_unit::Byte::parse_str(s, true)` — a decimal
magnitude (optional fractional part, truncated toward zero after unit
multiplication), optional whitespace, then the optional case-insensitive unit
suffix.  The crate itself is external to this repository. -/
def parse_str (s : String) : Except BUParseError Nat :=
  let cs := s.toList.dropWhile (· = ' ')
  let intDigits := cs.takeWhile Char.isDigit
  let rest := cs.dropWhile Char.isDigit
  if intDigits.isEmpty then .error (.Value s)
  else
    let fracDigits :=
      match rest with
      | '.' :: r => r.takeWhile Char.isDigit
      | _ => []
    let rest2 :=
      match rest with
      | '.' :: r => r.dropWhile Char.isDigit
      | _ => rest
    let unitChars := rest2.dropWhile (· = ' ')
    match parseUnit unitChars with
    | .error e => .error (.Unit e)
    | .ok mult =>
      .ok (digitsVal intDigits * mult +
           digitsVal fracDigits * mult / 10 ^ fracDigits.length)

/-- Lines 14–17 of `main.rs`: the repository's error type. -/
inductive MyError where
  | SizeParseError (msg : String)
  deriving DecidableEq, Repr

/-- Lines 29–42 of `main.rs`: `impl From<ParseError> for MyError`.  A unit
error is rendered as `"Неверная единица измерения '{c}'. Ожидались: {set}"`;
any other variant is rendered via its `to_string()`. -/
def MyError.ofParseError : BUParseError → MyError
  | .Unit e =>
      .SizeParseError ("Неверная единица измерения '" ++ String.singleton e.character
        ++ "'. Ожидались: " ++ String.mk e.expected_characters)
  | .Value msg => .SizeParseError msg

/-- Lines 150–152 of `main.rs`: `Byte::parse_str(s, true).map_err(MyError::from)`,
composed with the `.as_u64()` used at every call site. -/
def parse_size (s : String) : Except MyError Nat :=
  match parse_str s with
  | .error e => .error (MyError.ofParseError e)
  | .ok n => .ok n

/-! ## Command-line arguments and configuration -/

/-- Lines 44–73 of `main.rs`: the clap-derived argument record, after clap has
filled in the defaults for `d`, `min`, `max`. -/
structure Args where
  folder_path : Option String
  positional_folder_path : Option String
  size : Option String
  positional_size : Option String
  d : Nat
  min : String
  max : String
  deriving DecidableEq, Repr

/-- The configuration consumed by the generation loop (spec §3), as resolved
by lines 77–93 of `main.rs`. -/
structure Config where
  folderPath : List String
  targetSize : Nat
  maxDepth : Nat
  minFileSize : Nat
  maxFileSize : Nat
  deriving DecidableEq, Repr

/-! ## Filesystem and run state -/

/-- The filesystem operations the program issues (paths are component lists,
contents are byte lists). -/
inductive FsOp where
  | createDirAll (path : List String)
  | createFile (path : List String)
  | writeAll (path : List String) (content : List Nat)
  deriving DecidableEq, Repr

/-- A filesystem oracle: `none` means the operation succeeds; `some msg`
means it fails with an `std::io::Error` whose rendering is `msg`. -/
def FsOracle : Type := FsOp → Option String

/-- One successfully written file: its directory, name, and content bytes. -/
structure FileRecord where
  dir : List String
  name : String
  content : List Nat
  deriving DecidableEq, Repr

/-- The loop's mutable state (lines 95–96, 108–124): cumulative bytes,
file counter, plus the files written so far, the trace of filesystem
operations issued, and the RNG stream position. -/
structure RunState where
  current_size : Nat
  file_number : Nat
  files : List FileRecord
  trace : List FsOp
  pos : Nat
  deriving DecidableEq, Repr

/-- The `rand::distributions::Alphanumeric` character set, in the crate's
order (uppercase, lowercase, digits). -/
def alphanumericChars : List Char :=
  "ABCDEFGHIJKLMNOPQRSTUVWXYZabcdefghijklmnopqrstuvwxyz0123456789".toList

/-- One `Alphanumeric` sample from the draw `rv`. -/
def sampleAlphanumeric (rv : Nat) : Char :=
  alphanumericChars.getD (rv % 62) 'A'

/-- Lines 137–148 of `main.rs`: `create_nested_path` appends `depth` random
8-character alphanumeric components to `base_path`.  Consumes 8 draws per
component; returns the path and the new stream position. -/
def create_nested_path (base : List String) (depth : Nat) (r : Nat → Nat)
    (pos : Nat) : List String × Nat :=
  match depth with
  | 0 => (base, pos)
  | d + 1 =>
    let folder_name := String.mk ((List.range 8).map fun i => sampleAlphanumeric (r (pos + i)))
    create_nested_path (base ++ [folder_name]) d r (pos + 8)

/-- Outcome of one iteration of the generation loop. -/
inductive BodyResult where
  | ok (s : RunState)
  | fsError (msg : String) (s : RunState)
  | rangePanic
  deriving Repr

/-- Lines 109–123 of `main.rs`: one iteration of the `while` body — sample a
file size and a nesting depth, build the nested path, create the directory,
create the file, write `file_size` random bytes, then update the totals. -/
def loopBody (cfg : Config) (r : Nat → Nat) (oracle : FsOracle)
    (s : RunState) : BodyResult :=
  match genRange cfg.minFileSize cfg.maxFileSize (r s.pos) with
  | none => .rangePanic
  | some file_size =>
    let file_name := "file_" ++ Nat.repr s.file_number ++ ".txt"
    match genRange 0 cfg.maxDepth (r (s.pos + 1)) with
    | none => .rangePanic
    | some nested_depth =>
      let fp := create_nested_path cfg.folderPath nested_depth r (s.pos + 2)
      let file_path := fp.fst
      let s1 : RunState :=
        { s with trace := s.trace ++ [FsOp.createDirAll file_path], pos := fp.snd }
      match oracle (FsOp.createDirAll file_path) with
      | some msg => .fsError msg s1
      | none =>
        let full_file_path := file_path ++ [file_name]
        let s2 : RunState := { s1 with trace := s1.trace ++ [FsOp.createFile full_file_path] }
        match oracle (FsOp.createFile full_file_path) with
        | some msg => .fsError msg s2
        | none =>
          let content := (List.range file_size).map fun i => r (fp.snd + i) % 256
          let s3 : RunState :=
            { s2 with trace := s2.trace ++ [FsOp.writeAll full_file_path content],
                      pos := fp.snd + file_size }
          match oracle (FsOp.writeAll full_file_path content) with
          | some msg => .fsError msg s3
          | none =>
            .ok { s3 with current_size := s3.current_size + file_size,
                          file_number := s3.file_number + 1,
                          files := s3.files ++ [⟨file_path, file_name, content⟩] }

/-- Outcome of the generation loop: normal exit, fatal filesystem error
(carrying the state at failure — nothing is cleaned up), a `gen_range`
panic, or fuel exhaustion (the loop has not yet terminated). -/
inductive LoopResult where
  | done (s : RunState)
  | fsError (msg : String) (s : RunState)
  | rangePanic
  | outOfFuel (s : RunState)
  deriving Repr

/-- Lines 108–124 of `main.rs`: `while current_size < total_size { … }`,
indexed by fuel so the (possibly non-terminating) loop is total. -/
def runLoop (cfg : Config) (r : Nat → Nat) (oracle : FsOracle) :
    Nat → RunState → LoopResult
  | 0, s => if s.current_size < cfg.targetSize then .outOfFuel s else .done s
  | fuel + 1, s =>
    if s.current_size < cfg.targetSize then
      match loopBody cfg r oracle s with
      | .ok s2 => runLoop cfg r oracle fuel s2
      | .fsError msg s2 => .fsError msg s2
      | .rangePanic => .rangePanic
    else .done s

/-- Result of the whole program: an argument error or size-parse error
(both occur before any filesystem operation), or the loop outcome; on
success the stdout report is included. -/
inductive MainResult where
  | argError (msg : String)
  | parseError (e : MyError)
  | fsError (msg : String) (s : RunState)
  | rangePanic
  | outOfFuel (s : RunState)
  | success (s : RunState) (stdoutLines : List String)
  deriving Repr

/-- Lines 107–134 of `main.rs`, after configuration binding: ensure
`folder_path` exists, run the generation loop from zeroed state, then print
`Created files: {n}`.  (The second stdout line renders the total through
`f64` GiB formatting and is outside this model.) -/
def generate (cfg : Config) (r : Nat → Nat) (oracle : FsOracle)
    (fuel : Nat) : MainResult :=
  let s0 : RunState :=
    { current_size := 0, file_number := 0, files := [],
      trace := [FsOp.createDirAll cfg.folderPath], pos := 0 }
  match oracle (FsOp.createDirAll cfg.folderPath) with
  | some msg => .fsError msg s0
  | none =>
    match runLoop cfg r oracle fuel s0 with
    | .done s => .success s ["Created files: " ++ Nat.repr s.file_number]
    | .fsError msg s => .fsError msg s
    | .rangePanic => .rangePanic
    | .outOfFuel s => .outOfFuel s

/-- Lines 75–134 of `main.rs`: resolve the folder path (flagged form wins
over positional, else fail), resolve the size the same way, parse the three
size strings, apply the `max < min` repair, then generate.  Every `?` return
in this prefix happens before any filesystem operation is issued. -/
def mainRun (args : Args) (r : Nat → Nat) (oracle : FsOracle)
    (fuel : Nat) : MainResult :=
  match args.folder_path.or args.positional_folder_path with
  | none => .argError "Folder path must be specified"
  | some folder_path =>
    match args.size.or args.positional_size with
    | none => .argError "Size be specified"
    | some size =>
      match parse_size size with
      | .error e => .parseError e
      | .ok total_size =>
        match parse_size args.min with
        | .error e => .parseError e
        | .ok min_file_size =>
          match parse_size args.max with
          | .error e => .parseError e
          | .ok max_file_size0 =>
            let max_file_size := (repairMax min_file_size max_file_size0).fst
            generate
              { folderPath := [folder_path], targetSize := total_size,
                maxDepth := args.d, minFileSize := min_file_size,
                maxFileSize := max_file_size } r oracle fuel

/-- The always-succeeding filesystem oracle (a healthy filesystem). -/
def fsOk : FsOracle := fun _ => none

/-- The file name built at line 110: `format!("file_{}.txt", file_number)`. -/
def mkFileName (n : Nat) : String :=
  "file_" ++ Nat.repr n ++ ".txt"

/-- The run state carried by a loop outcome, when there is one. -/
def LoopResult.stateOf : LoopResult → Option RunState
  | .done s => some s
  | .fsError _ s => some s
  | .rangePanic => none
  | .outOfFuel s => some s

/-- The io-error message surfaced by a program outcome, if any. -/
def MainResult.errMsg : MainResult → Option String
  | .fsError msg _ => some msg
  | _ => none

/-- The files the program has created in a given outcome. -/
def MainResult.filesCreated : MainResult → List FileRecord
  | .argError _ => []
  | .parseError _ => []
  | .fsError _ s => s.files
  | .rangePanic => []
  | .outOfFuel s => s.files
  | .success s _ => s.files

/-- Structural decimal digits of `n`, most significant first. -/
def natDigits (n : Nat) : List Char :=
  if h : n / 10 = 0 then [Nat.digitChar (n % 10)]
  else natDigits (n / 10) ++ [Nat.digitChar (n % 10)]
decreasing_by
  have h10 : 10 ≤ n := by
    rcases Nat.lt_or_ge n 10 with h1 | h1
    · exact absurd (Nat.div_eq_of_lt h1) h
    · exact h1
  exact Nat.div_lt_self (by omega) (by omega)

/-! ## Basic lemmas: range sampling and the `max < min` repair -/

theorem genRange_eq_some (lo hi rv : Nat) (h : lo ≤ hi) :
    genRange lo hi rv = some (lo + rv % (hi - lo + 1)) := by
  simp [genRange, h]

theorem genRange_mem (lo hi rv v : Nat) (h : genRange lo hi rv = some v) :
    lo ≤ hi ∧ lo ≤ v ∧ v ≤ hi := by
  by_cases hle : lo ≤ hi
  · simp only [genRange, if_pos hle, Option.some.injEq] at h
    refine ⟨hle, ?_, ?_⟩
    · omega
    · have hm : rv % (hi - lo + 1) < hi - lo + 1 := Nat.mod_lt _ (by omega)
      omega
  · simp [genRange, hle] at h

theorem genRange_self (s rv : Nat) : genRange s s rv = some s := by
  simp [genRange, Nat.mod_one]

theorem genRange_none_iff (lo hi rv : Nat) :
    genRange lo hi rv = none ↔ hi < lo := by
  by_cases hle : lo ≤ hi <;> simp [genRange, hle] <;> omega

theorem repairMax_le (mn mx : Nat) : mn ≤ (repairMax mn mx).fst := by
  by_cases h : mx < mn <;> simp [repairMax, h] <;> omega

/-! ## Decimal rendering (`Nat.repr`) is injective

`format!("{}", n)` in Rust and `Nat.repr` in Lean both render `n` in
decimal; injectivity of the rendering is what makes the generated file
names pairwise distinct. -/

theorem toDigitsCore_eq_natDigits :
    ∀ (fuel n : Nat) (ds : List Char), n < fuel →
      Nat.toDigitsCore 10 fuel n ds = natDigits n ++ ds := by
  intro fuel
  induction fuel with
  | zero => intro n ds h; omega
  | succ f ih =>
    intro n ds h
    rw [natDigits]
    by_cases h0 : n / 10 = 0
    · simp [Nat.toDigitsCore, h0]
    · have h10 : 10 ≤ n := by omega
      have hlt : n / 10 < f := by omega
      rw [dif_neg h0]
      simp only [Nat.toDigitsCore, if_neg h0]
      rw [ih (n / 10) (Nat.digitChar (n % 10) :: ds) hlt]
      simp

theorem natRepr_eq (n : Nat) : Nat.repr n = (natDigits n).asString := by
  show (Nat.toDigits 10 n).asString = (natDigits n).asString
  rw [Nat.toDigits, toDigitsCore_eq_natDigits (n + 1) n [] (Nat.lt_succ_self n)]
  simp

theorem digitChar_toNat_sub (m : Nat) (h : m < 10) :
    (Nat.digitChar m).toNat - 48 = m := by
  interval_cases m <;> decide

theorem digitsVal_natDigits : ∀ n, digitsVal (natDigits n) = n := by
  intro n
  induction n using Nat.strong_induction_on with
  | _ n ih =>
    rw [natDigits]
    by_cases h0 : n / 10 = 0
    · have hn : n < 10 := by omega
      rw [dif_pos h0]
      show digitsVal [Nat.digitChar (n % 10)] = n
      simp [digitsVal, Nat.mod_eq_of_lt hn, digitChar_toNat_sub n hn]
    · have h10 : 10 ≤ n := by omega
      have hlt : n / 10 < n := by omega
      rw [dif_neg h0]
      have : digitsVal (natDigits (n / 10) ++ [Nat.digitChar (n % 10)]) =
          10 * digitsVal (natDigits (n / 10)) + ((Nat.digitChar (n % 10)).toNat - 48) := by
        simp [digitsVal, List.foldl_append]
      rw [this, ih (n / 10) hlt, digitChar_toNat_sub (n % 10) (Nat.mod_lt _ (by omega))]
      omega

theorem natRepr_injective (a b : Nat) (h : Nat.repr a = Nat.repr b) : a = b := by
  rw [natRepr_eq, natRepr_eq] at h
  have hdig : natDigits a = natDigits b := by
    have h2 : (natDigits a).asString.data = (natDigits b).asString.data := by rw [h]
    simpa [List.asString] using h2
  calc a = digitsVal (natDigits a) := (digitsVal_natDigits a).symm
    _ = digitsVal (natDigits b) := by rw [hdig]
    _ = b := digitsVal_natDigits b

theorem mkFileName_injective (a b : Nat) (h : mkFileName a = mkFileName b) : a = b := by
  apply natRepr_injective
  have hdata : ("file_" ++ Nat.repr a ++ ".txt").data = ("file_" ++ Nat.repr b ++ ".txt").data := by
    simpa [mkFileName] using congrArg String.data h
  simp only [String.data_append] at hdata
  have h1 : (Nat.repr a).data ++ ".txt".data = (Nat.repr b).data ++ ".txt".data := by
    have := List.append_cancel_left (List.append_assoc _ _ _ ▸ hdata)
    simpa [List.append_assoc] using this
  have h2 : (Nat.repr a).data = (Nat.repr b).data := List.append_cancel_right h1
  exact String.ext h2

/-! ## One iteration of the generation loop -/

theorem genRange_zero (d rv : Nat) : genRange 0 d rv = some (rv % (d + 1)) := by
  simp [genRange]

/-- Auxiliary: a list extended by up to three elements extends the original. -/
theorem append_extend1 {a : Type} (t : List a) (x : a) : ∃ u, t ++ [x] = t ++ u :=
  ⟨[x], rfl⟩

theorem append_extend2 {a : Type} (t : List a) (x y : a) :
    ∃ u, t ++ [x] ++ [y] = t ++ u :=
  ⟨[x, y], by simp⟩

theorem append_extend3 {a : Type} (t : List a) (x y z : a) :
    ∃ u, t ++ [x] ++ [y] ++ [z] = t ++ u :=
  ⟨[x, y, z], by simp⟩

/-- A successful iteration samples a size in `[min, max]`, writes a file of
exactly that many bytes named after the current counter, adds the size to the
running total, and increments the counter. -/
theorem loopBody_ok_spec (cfg : Config) (r : Nat → Nat) (oracle : FsOracle)
    (s s2 : RunState) (h : loopBody cfg r oracle s = .ok s2) :
    ∃ size dir content,
      s2.files = s.files ++ [⟨dir, "file_" ++ Nat.repr s.file_number ++ ".txt", content⟩] ∧
      cfg.minFileSize ≤ size ∧ size ≤ cfg.maxFileSize ∧
      List.length content = size ∧
      s2.current_size = s.current_size + size ∧
      s2.file_number = s.file_number + 1 ∧
      ∃ t2, s2.trace = s.trace ++ t2 := by
  unfold loopBody at h
  split at h
  · exact absurd h (by simp)
  next file_size h1 =>
    split at h
    · exact absurd h (by simp)
    next nested_depth h2 =>
      have hmem := genRange_mem _ _ _ _ h1
      dsimp only [] at h
      split at h
      · exact absurd h (by simp)
      · split at h
        · exact absurd h (by simp)
        · split at h
          · exact absurd h (by simp)
          · injection h with h
            subst h
            exact ⟨file_size, _, _, rfl, hmem.2.1, hmem.2.2, by simp, by simp, by simp,
              append_extend3 _ _ _ _⟩

/-- A failing iteration surfaces the oracle's message for the operation it
was issuing, changes none of the totals or recorded files, and issues no
further operation after the failing one (it is the last of the trace). -/
theorem loopBody_fsError_spec (cfg : Config) (r : Nat → Nat) (oracle : FsOracle)
    (s s2 : RunState) (msg : String) (h : loopBody cfg r oracle s = .fsError msg s2) :
    s2.current_size = s.current_size ∧ s2.file_number = s.file_number ∧
    s2.files = s.files ∧
    (∃ op, oracle op = some msg ∧ s2.trace.getLast? = some op) ∧
    (∃ t2, s2.trace = s.trace ++ t2) := by
  unfold loopBody at h
  split at h
  · exact absurd h (by simp)
  next file_size h1 =>
    split at h
    · exact absurd h (by simp)
    next nested_depth h2 =>
      dsimp only [] at h
      split at h
      next msg1 h3 =>
        injection h with hm hs
        subst hm; subst hs
        exact ⟨rfl, rfl, rfl, ⟨_, h3, by simp⟩, append_extend1 _ _⟩
      · split at h
        next msg2 h4 =>
          injection h with hm hs
          subst hm; subst hs
          exact ⟨rfl, rfl, rfl, ⟨_, h4, by simp⟩, append_extend2 _ _ _⟩
        · split at h
          next msg3 h5 =>
            injection h with hm hs
            subst hm; subst hs
            exact ⟨rfl, rfl, rfl, ⟨_, h5, by simp⟩, append_extend3 _ _ _ _⟩
          · exact absurd h (by simp)

/-- The per-iteration sampling panics exactly when the size range is
inverted; the depth range `[0, depth]` can never cause a panic. -/
theorem loopBody_rangePanic_iff (cfg : Config) (r : Nat → Nat) (oracle : FsOracle)
    (s : RunState) :
    loopBody cfg r oracle s = .rangePanic ↔ cfg.maxFileSize < cfg.minFileSize := by
  constructor
  · intro h
    unfold loopBody at h
    split at h
    next h1 => exact (genRange_none_iff _ _ _).mp h1
    next file_size h1 =>
      split at h
      next h2 =>
        have := (genRange_none_iff _ _ _).mp h2
        omega
      next nested_depth h2 =>
        dsimp only [] at h
        split at h
        · exact absurd h (by simp)
        · split at h
          · exact absurd h (by simp)
          · split at h
            · exact absurd h (by simp)
            · exact absurd h (by simp)
  · intro h
    have h1 : genRange cfg.minFileSize cfg.maxFileSize (r s.pos) = none := by
      rw [genRange_none_iff]; omega
    unfold loopBody
    rw [h1]

/-- With a healthy filesystem and a sane range, every iteration succeeds. -/
theorem loopBody_fsOk_ok (cfg : Config) (r : Nat → Nat) (s : RunState)
    (hle : cfg.minFileSize ≤ cfg.maxFileSize) :
    ∃ s2, loopBody cfg r fsOk s = .ok s2 := by
  cases hb : loopBody cfg r fsOk s with
  | ok s2 => exact ⟨s2, rfl⟩
  | fsError msg s2 =>
    obtain ⟨_, _, _, ⟨op, hop, _⟩, _⟩ := loopBody_fsError_spec _ _ _ _ _ _ hb
    exact absurd hop (by simp [fsOk])
  | rangePanic =>
    have := (loopBody_rangePanic_iff _ _ _ _).mp hb
    omega

/-! ## The generation loop -/

/-- If the target is already met, the loop exits immediately with the state
unchanged, whatever the fuel. -/
theorem runLoop_done_of_ge (cfg : Config) (r : Nat → Nat) (oracle : FsOracle)
    (fuel : Nat) (s : RunState) (h : ¬ s.current_size < cfg.targetSize) :
    runLoop cfg r oracle fuel s = .done s := by
  cases fuel with
  | zero => simp [runLoop, h]
  | succ f => simp [runLoop, h]

/-- Any property preserved by successful and by failing iterations holds of
the state carried by the loop's outcome. -/
theorem runLoop_inv (cfg : Config) (r : Nat → Nat) (oracle : FsOracle)
    (I : RunState → Prop)
    (hok : ∀ s s2, loopBody cfg r oracle s = .ok s2 → I s → I s2)
    (hfail : ∀ s msg s2, loopBody cfg r oracle s = .fsError msg s2 → I s → I s2) :
    ∀ (fuel : Nat) (s st : RunState), I s →
      (runLoop cfg r oracle fuel s).stateOf = some st → I st := by
  intro fuel
  induction fuel with
  | zero =>
    intro s st hI hst
    by_cases hc : s.current_size < cfg.targetSize <;>
      (simp [runLoop, hc, LoopResult.stateOf] at hst; subst hst; exact hI)
  | succ f ih =>
    intro s st hI hst
    by_cases hc : s.current_size < cfg.targetSize
    · simp only [runLoop, if_pos hc] at hst
      cases hb : loopBody cfg r oracle s with
      | ok s2 =>
        rw [hb] at hst; dsimp only [] at hst
        exact ih s2 st (hok s s2 hb hI) hst
      | fsError msg s2 =>
        rw [hb] at hst; dsimp only [] at hst
        simp [LoopResult.stateOf] at hst
        subst hst
        exact hfail s msg s2 hb hI
      | rangePanic =>
        rw [hb] at hst; dsimp only [] at hst
        simp [LoopResult.stateOf] at hst
    · simp only [runLoop, if_neg hc, LoopResult.stateOf, Option.some.injEq] at hst
      subst hst
      exact hI

/-- When the loop exits normally from a state strictly below the target, the
final total is at least the target and overshoots it by less than the last
sampled size can exceed — i.e. by less than `maxFileSize`. -/
theorem runLoop_done_bounds (cfg : Config) (r : Nat → Nat) (oracle : FsOracle) :
    ∀ (fuel : Nat) (s st : RunState), s.current_size < cfg.targetSize →
      runLoop cfg r oracle fuel s = .done st →
      cfg.targetSize ≤ st.current_size ∧
      st.current_size < cfg.targetSize + cfg.maxFileSize := by
  intro fuel
  induction fuel with
  | zero =>
    intro s st hc h
    simp [runLoop, hc] at h
  | succ f ih =>
    intro s st hc h
    simp only [runLoop, if_pos hc] at h
    cases hb : loopBody cfg r oracle s with
    | ok s2 =>
      rw [hb] at h; dsimp only [] at h
      by_cases hc2 : s2.current_size < cfg.targetSize
      · exact ih s2 st hc2 h
      · rw [runLoop_done_of_ge cfg r oracle f s2 hc2] at h
        injection h with h
        subst h
        obtain ⟨size, dir, content, _, _, hsize, _, hcur, _, _⟩ :=
          loopBody_ok_spec _ _ _ _ _ hb
        constructor
        · omega
        · omega
    | fsError msg s2 =>
      rw [hb] at h; dsimp only [] at h
      exact absurd h (by simp)
    | rangePanic =>
      rw [hb] at h; dsimp only [] at h
      exact absurd h (by simp)

/-- A filesystem failure anywhere in the loop surfaces the oracle's message
for the failing operation, which is the last operation issued. -/
theorem runLoop_fsError_last (cfg : Config) (r : Nat → Nat) (oracle : FsOracle) :
    ∀ (fuel : Nat) (s st : RunState) (msg : String),
      runLoop cfg r oracle fuel s = .fsError msg st →
      ∃ op, oracle op = some msg ∧ st.trace.getLast? = some op := by
  intro fuel
  induction fuel with
  | zero =>
    intro s st msg h
    by_cases hc : s.current_size < cfg.targetSize <;> simp [runLoop, hc] at h
  | succ f ih =>
    intro s st msg h
    by_cases hc : s.current_size < cfg.targetSize
    · simp only [runLoop, if_pos hc] at h
      cases hb : loopBody cfg r oracle s with
      | ok s2 =>
        rw [hb] at h; dsimp only [] at h
        exact ih s2 st msg h
      | fsError msg2 s2 =>
        rw [hb] at h; dsimp only [] at h
        injection h with hm hs
        subst hm; subst hs
        obtain ⟨_, _, _, hlast, _⟩ := loopBody_fsError_spec _ _ _ _ _ _ hb
        exact hlast
      | rangePanic =>
        rw [hb] at h; dsimp only [] at h
        exact absurd h (by simp)
    · rw [runLoop_done_of_ge cfg r oracle (f + 1) s hc] at h
      exact absurd h (by simp)

/-- The loop never hits the `gen_range` panic when the size bounds are in
order. -/
theorem runLoop_no_panic (cfg : Config) (r : Nat → Nat) (oracle : FsOracle)
    (hle : cfg.minFileSize ≤ cfg.maxFileSize) :
    ∀ (fuel : Nat) (s : RunState), runLoop cfg r oracle fuel s ≠ .rangePanic := by
  intro fuel
  induction fuel with
  | zero =>
    intro s h
    by_cases hc : s.current_size < cfg.targetSize <;> simp [runLoop, hc] at h
  | succ f ih =>
    intro s h
    by_cases hc : s.current_size < cfg.targetSize
    · simp only [runLoop, if_pos hc] at h
      cases hb : loopBody cfg r oracle s with
      | ok s2 =>
        rw [hb] at h; dsimp only [] at h
        exact ih s2 h
      | fsError msg2 s2 =>
        rw [hb] at h; dsimp only [] at h
        exact absurd h (by simp)
      | rangePanic =>
        have := (loopBody_rangePanic_iff cfg r oracle s).mp hb
        omega
    · rw [runLoop_done_of_ge cfg r oracle (f + 1) s hc] at h
      exact absurd h (by simp)

/-! ## The whole run -/

/-- A successful run means the root directory creation succeeded, the loop
exited normally, and stdout reports the final file counter. -/
theorem generate_success_spec (cfg : Config) (r : Nat → Nat) (oracle : FsOracle)
    (fuel : Nat) (s : RunState) (out : List String)
    (h : generate cfg r oracle fuel = .success s out) :
    oracle (FsOp.createDirAll cfg.folderPath) = none ∧
    runLoop cfg r oracle fuel
      ⟨0, 0, [], [FsOp.createDirAll cfg.folderPath], 0⟩ = .done s ∧
    out = ["Created files: " ++ Nat.repr s.file_number] := by
  unfold generate at h
  dsimp only [] at h
  split at h
  · exact absurd h (by simp)
  next heq =>
    split at h
    next s3 heq2 =>
      injection h with h1 h2
      subst h1; subst h2
      exact ⟨heq, heq2, rfl⟩
    · exact absurd h (by simp)
    · exact absurd h (by simp)
    · exact absurd h (by simp)

/-- A failing run surfaces a filesystem error exactly as the loop (or the
initial directory creation) produced it. -/
theorem generate_fsError_spec (cfg : Config) (r : Nat → Nat) (oracle : FsOracle)
    (fuel : Nat) (msg : String) (st : RunState)
    (h : generate cfg r oracle fuel = .fsError msg st) :
    (oracle (FsOp.createDirAll cfg.folderPath) = some msg ∧
      st = ⟨0, 0, [], [FsOp.createDirAll cfg.folderPath], 0⟩) ∨
    (oracle (FsOp.createDirAll cfg.folderPath) = none ∧
      runLoop cfg r oracle fuel
        ⟨0, 0, [], [FsOp.createDirAll cfg.folderPath], 0⟩ = .fsError msg st) := by
  unfold generate at h
  dsimp only [] at h
  split at h
  next msg2 heq =>
    injection h with h1 h2
    subst h1; subst h2
    exact Or.inl ⟨heq, rfl⟩
  next heq =>
    split at h
    · exact absurd h (by simp)
    next msg3 s3 heq2 =>
      injection h with h1 h2
      subst h1; subst h2
      exact Or.inr ⟨heq, heq2⟩
    · exact absurd h (by simp)
    · exact absurd h (by simp)

/-- The recorded files are always exactly `file_0.txt … file_{n-1}.txt` in
creation order, where `n` is the current file counter. -/
theorem runLoop_names_inv (cfg : Config) (r : Nat → Nat) (oracle : FsOracle)
    (fuel : Nat) (s st : RunState)
    (hJ : s.files.map (fun f => f.name) = (List.range s.file_number).map mkFileName)
    (hst : (runLoop cfg r oracle fuel s).stateOf = some st) :
    st.files.map (fun f => f.name) = (List.range st.file_number).map mkFileName := by
  refine runLoop_inv cfg r oracle
    (fun x => x.files.map (fun f => f.name) = (List.range x.file_number).map mkFileName)
    ?_ ?_ fuel s st hJ hst
  · intro a b hb hI
    obtain ⟨size, dir, content, hfiles, _, _, _, _, hfn, _⟩ := loopBody_ok_spec _ _ _ _ _ hb
    rw [hfiles, hfn]
    simp [List.range_succ, hI, mkFileName]
  · intro a msg b hb hI
    obtain ⟨_, hfn, hfiles, _, _⟩ := loopBody_fsError_spec _ _ _ _ _ _ hb
    rw [hfiles, hfn]; exact hI

/-- With equal size bounds the running total is always `counter × size`. -/
theorem runLoop_const_size_inv (cfg : Config) (r : Nat → Nat) (oracle : FsOracle)
    (sz : Nat) (hmin : cfg.minFileSize = sz) (hmax : cfg.maxFileSize = sz)
    (fuel : Nat) (s st : RunState)
    (hK : s.current_size = s.file_number * sz)
    (hst : (runLoop cfg r oracle fuel s).stateOf = some st) :
    st.current_size = st.file_number * sz := by
  refine runLoop_inv cfg r oracle
    (fun x => x.current_size = x.file_number * sz)
    ?_ ?_ fuel s st hK hst
  · intro a b hb hI
    obtain ⟨size, dir, content, _, hlo, hhi, _, hcur, hfn, _⟩ := loopBody_ok_spec _ _ _ _ _ hb
    have hsz : size = sz := by omega
    rw [hcur, hfn, hI, hsz, Nat.succ_mul]
  · intro a msg b hb hI
    obtain ⟨hcur, hfn, _, _, _⟩ := loopBody_fsError_spec _ _ _ _ _ _ hb
    rw [hcur, hfn]; exact hI

/-- With equal size bounds every recorded file has exactly that size. -/
theorem runLoop_sizes_inv (cfg : Config) (r : Nat → Nat) (oracle : FsOracle)
    (sz : Nat) (hmin : cfg.minFileSize = sz) (hmax : cfg.maxFileSize = sz)
    (fuel : Nat) (s st : RunState)
    (hA : ∀ f ∈ s.files, f.content.length = sz)
    (hst : (runLoop cfg r oracle fuel s).stateOf = some st) :
    ∀ f ∈ st.files, f.content.length = sz := by
  refine runLoop_inv cfg r oracle
    (fun x => ∀ f ∈ x.files, f.content.length = sz)
    ?_ ?_ fuel s st hA hst
  · intro a b hb hI
    obtain ⟨size, dir, content, hfiles, hlo, hhi, hlen, _, _, _⟩ := loopBody_ok_spec _ _ _ _ _ hb
    intro f hf
    rw [hfiles] at hf
    rcases List.mem_append.mp hf with hf1 | hf2
    · exact hI f hf1
    · have : f = ⟨dir, "file_" ++ Nat.repr a.file_number ++ ".txt", content⟩ := by
        simpa using hf2
      rw [this]
      show content.length = sz
      omega
  · intro a msg b hb hI
    obtain ⟨_, _, hfiles, _, _⟩ := loopBody_fsError_spec _ _ _ _ _ _ hb
    rw [hfiles]; exact hI

/-- With a healthy filesystem and both size bounds zero, the loop makes no
progress: the running total stays at zero forever. -/
theorem runLoop_zero_progress (cfg : Config) (r : Nat → Nat)
    (hmin : cfg.minFileSize = 0) (hmax : cfg.maxFileSize = 0)
    (htarget : 0 < cfg.targetSize) :
    ∀ (fuel : Nat) (s : RunState), s.current_size = 0 →
      ∃ st, runLoop cfg r fsOk fuel s = .outOfFuel st ∧ st.current_size = 0 := by
  intro fuel
  induction fuel with
  | zero =>
    intro s hs
    have hc : s.current_size < cfg.targetSize := by omega
    exact ⟨s, by simp [runLoop, hc], hs⟩
  | succ f ih =>
    intro s hs
    have hc : s.current_size < cfg.targetSize := by omega
    obtain ⟨s2, hb⟩ := loopBody_fsOk_ok cfg r s (by omega)
    obtain ⟨size, dir, content, _, hlo, hhi, _, hcur, _, _⟩ := loopBody_ok_spec _ _ _ _ _ hb
    have hs2 : s2.current_size = 0 := by omega
    obtain ⟨st, hrun, hst⟩ := ih s2 hs2
    refine ⟨st, ?_, hst⟩
    simp only [runLoop, if_pos hc, hb]
    exact hrun

/-- C2: the claim says a configuration with `minFileSize = maxFileSize = 0`
and positive target is rejected with `ImpossibleProgress` before the loop.
The code has no such check (lines 86–108 of `main.rs` go straight from the
repair to the `while`): on that configuration the program enters the loop
and never terminates — for every fuel bound the loop is still running. -/
theorem C2_min_max_zero_loops_forever (r : Nat → Nat) (fuel : Nat) :
    ∃ st, generate ⟨["t"], 1, 1, 0, 0⟩ r fsOk fuel = .outOfFuel st := by
  obtain ⟨st, hrun, -⟩ :=
    runLoop_zero_progress ⟨["t"], 1, 1, 0, 0⟩ r rfl rfl (by decide) fuel
      ⟨0, 0, [], [FsOp.createDirAll ["t"]], 0⟩ rfl
  refine ⟨st, ?_⟩
  unfold generate
  dsimp only []
  simp only [fsOk]
  rw [hrun]

/-- C1: for every configuration with a positive target and ordered positive
size bounds, if the generation loop terminates then the final cumulative
total satisfies `target ≤ total < target + maxFileSize`: the loop stops on
the first iteration whose post-increment total reaches the target, and the
overshoot is strictly less than `maxFileSize`. -/
theorem C1_final_cumulative_bounds (cfg : Config) (r : Nat → Nat) (oracle : FsOracle)
    (fuel : Nat) (s : RunState) (out : List String)
    (htarget : 0 < cfg.targetSize) (hmin : 0 < cfg.minFileSize)
    (hle : cfg.minFileSize ≤ cfg.maxFileSize)
    (h : generate cfg r oracle fuel = .success s out) :
    cfg.targetSize ≤ s.current_size ∧
    s.current_size < cfg.targetSize + cfg.maxFileSize := by
  obtain ⟨-, hr, -⟩ := generate_success_spec cfg r oracle fuel s out h
  exact runLoop_done_bounds cfg r oracle fuel _ s htarget hr

theorem C1_witness :
    ∃ s out, generate ⟨["t"], 10, 0, 4, 4⟩ (fun _ => 0) fsOk 10 = .success s out ∧
      10 ≤ s.current_size ∧ s.current_size < 14 := by
  refine ⟨_, _, rfl, ?_⟩
  exact C1_final_cumulative_bounds ⟨["t"], 10, 0, 4, 4⟩ (fun _ => 0) fsOk 10 _ _
    (by decide) (by decide) (by decide) rfl

/-- C4: configuration binding repairs inverted bounds — when `max < min` it
emits exactly the warning line (a diagnostic, not an error) and sets
`max := min`, so `min ≤ max` holds afterwards; on ordered bounds it does
nothing and warns nothing, so the repair is idempotent. -/
theorem C4_repair_inverted_bounds (mn mx : Nat) :
    mn ≤ (repairMax mn mx).fst ∧
    (repairMax mn mx).fst = (if mx < mn then mn else mx) ∧
    (mx < mn → (repairMax mn mx).snd = ["min is more than max! I'l make them equal."]) ∧
    (¬ mx < mn → (repairMax mn mx).snd = []) ∧
    repairMax mn (repairMax mn mx).fst = ((repairMax mn mx).fst, []) := by
  refine ⟨repairMax_le mn mx, ?_, ?_, ?_, ?_⟩
  · by_cases h : mx < mn <;> simp [repairMax, h]
  · intro h; simp [repairMax, h]
  · intro h; simp [repairMax, h]
  · by_cases h : mx < mn <;> simp [repairMax, h]

theorem C4_witness :
    (repairMax 5 3).fst = 5 ∧
    (repairMax 5 3).snd = ["min is more than max! I'l make them equal."] ∧
    repairMax 5 (repairMax 5 3).fst = (5, []) := by
  have h := C4_repair_inverted_bounds 5 3
  exact ⟨by decide, h.2.2.1 (by decide), by decide⟩

/-- C5: for the folder argument and for the size argument independently,
the flagged form wins when both forms are supplied, the supplied one is used
when exactly one is, and when neither is supplied the program fails with the
corresponding missing-argument error having created no file. -/
theorem C5_argument_resolution (args : Args) (r : Nat → Nat) (oracle : FsOracle)
    (fuel : Nat) (f p sz : String) :
    (mainRun { args with folder_path := some f, positional_folder_path := some p }
        r oracle fuel =
      mainRun { args with folder_path := some f, positional_folder_path := none }
        r oracle fuel) ∧
    (mainRun { args with folder_path := none, positional_folder_path := some p }
        r oracle fuel =
      mainRun { args with folder_path := some p, positional_folder_path := none }
        r oracle fuel) ∧
    (mainRun { args with folder_path := none, positional_folder_path := none }
        r oracle fuel = .argError "Folder path must be specified") ∧
    ((mainRun { args with folder_path := none, positional_folder_path := none }
        r oracle fuel).filesCreated = []) ∧
    (mainRun { args with folder_path := some f, size := some sz, positional_size := some p }
        r oracle fuel =
      mainRun { args with folder_path := some f, size := some sz, positional_size := none }
        r oracle fuel) ∧
    (mainRun { args with folder_path := some f, size := none, positional_size := some sz }
        r oracle fuel =
      mainRun { args with folder_path := some f, size := some sz, positional_size := none }
        r oracle fuel) ∧
    (mainRun { args with folder_path := some f, size := none, positional_size := none }
        r oracle fuel = .argError "Size be specified") ∧
    ((mainRun { args with folder_path := some f, size := none, positional_size := none }
        r oracle fuel).filesCreated = []) :=
  ⟨rfl, rfl, rfl, rfl, rfl, rfl, rfl, rfl⟩

/-- C7: with a zero target the loop exits immediately: no iteration runs, no
file is recorded, yet the root folder is still created and the program
succeeds reporting `Created files: 0`. -/
theorem C7_zero_target_run (cfg : Config) (r : Nat → Nat) (oracle : FsOracle)
    (fuel : Nat) (htarget : cfg.targetSize = 0)
    (horacle : oracle (FsOp.createDirAll cfg.folderPath) = none) :
    generate cfg r oracle fuel =
      .success ⟨0, 0, [], [FsOp.createDirAll cfg.folderPath], 0⟩
        ["Created files: 0"] := by
  unfold generate
  dsimp only []
  rw [horacle,
    runLoop_done_of_ge cfg r oracle fuel
      ⟨0, 0, [], [FsOp.createDirAll cfg.folderPath], 0⟩ (by simp [htarget])]
  dsimp only []
  exact congrArg (MainResult.success _) rfl

theorem C7_witness :
    generate ⟨["t7"], 0, 1, 1024, 2048⟩ (fun _ => 0) fsOk 5 =
      .success ⟨0, 0, [], [FsOp.createDirAll ["t7"]], 0⟩ ["Created files: 0"] :=
  C7_zero_target_run ⟨["t7"], 0, 1, 1024, 2048⟩ (fun _ => 0) fsOk 5 rfl rfl

/-- The generation part never panics when the bounds are in order. -/
theorem generate_no_panic (cfg : Config) (r : Nat → Nat) (oracle : FsOracle)
    (fuel : Nat) (hle : cfg.minFileSize ≤ cfg.maxFileSize) :
    generate cfg r oracle fuel ≠ .rangePanic := by
  intro h
  unfold generate at h
  dsimp only [] at h
  split at h
  · exact absurd h (by simp)
  · split at h
    next s3 heq2 => exact absurd h (by simp)
    next msg3 s3 heq2 => exact absurd h (by simp)
    next heq2 => exact absurd heq2 (runLoop_no_panic cfg r oracle hle fuel _)
    next s3 heq2 => exact absurd h (by simp)

/-- C10: the per-file size sampling can never panic — whatever the raw
arguments, the pre-loop repair forces `min ≤ max` for the entire run, and
the depth range `[0, depth]` is never empty — so no run of the program ever
reaches the empty-range panic. -/
theorem C10_no_range_panic (args : Args) (r : Nat → Nat) (oracle : FsOracle)
    (fuel : Nat) : mainRun args r oracle fuel ≠ .rangePanic := by
  intro h
  unfold mainRun at h
  split at h
  · exact absurd h (by simp)
  · split at h
    · exact absurd h (by simp)
    · split at h
      · exact absurd h (by simp)
      · split at h
        · exact absurd h (by simp)
        · split at h
          · exact absurd h (by simp)
          next max0 heq =>
            dsimp only [] at h
            exact absurd h (generate_no_panic _ r oracle fuel (repairMax_le _ _))

/-- C3: with `minFileSize = maxFileSize = s` every created file has exactly
`s` bytes, and when `s > 0` and the target is positive, a terminating loop
has performed exactly `⌈target / s⌉` iterations, so the final file count is
`⌈target / s⌉`. -/
theorem C3_equal_bounds_sizes_and_count (cfg : Config) (r : Nat → Nat)
    (oracle : FsOracle) (fuel : Nat) (s : RunState) (out : List String) (sz : Nat)
    (hmin : cfg.minFileSize = sz) (hmax : cfg.maxFileSize = sz)
    (h : generate cfg r oracle fuel = .success s out) :
    (∀ f ∈ s.files, f.content.length = sz) ∧
    (0 < sz → 0 < cfg.targetSize →
      s.file_number = (cfg.targetSize + sz - 1) / sz) := by
  obtain ⟨-, hr, -⟩ := generate_success_spec cfg r oracle fuel s out h
  have hstate : (runLoop cfg r oracle fuel
      ⟨0, 0, [], [FsOp.createDirAll cfg.folderPath], 0⟩).stateOf = some s := by
    rw [hr]; rfl
  constructor
  · exact runLoop_sizes_inv cfg r oracle sz hmin hmax fuel _ s (by simp) hstate
  · intro hsz htarget
    have hK := runLoop_const_size_inv cfg r oracle sz hmin hmax fuel _ s (by simp) hstate
    have hbounds := runLoop_done_bounds cfg r oracle fuel _ s htarget hr
    rw [hmax] at hbounds
    rw [hK] at hbounds
    refine (Nat.div_eq_of_lt_le ?_ ?_).symm
    · exact Nat.le_pred_of_lt hbounds.2
    · rw [Nat.succ_mul]
      have hx : cfg.targetSize + sz - 1 < cfg.targetSize + sz := by omega
      exact Nat.lt_of_lt_of_le hx (Nat.add_le_add_right hbounds.1 sz)

theorem C3_witness :
    ∃ s out, generate ⟨["t3"], 10, 0, 4, 4⟩ (fun _ => 0) fsOk 10 = .success s out ∧
      (∀ f ∈ s.files, f.content.length = 4) ∧ s.file_number = 3 := by
  refine ⟨_, _, rfl, ?_⟩
  have h := C3_equal_bounds_sizes_and_count ⟨["t3"], 10, 0, 4, 4⟩ (fun _ => 0)
    fsOk 10 _ _ 4 rfl rfl rfl
  exact ⟨h.1, h.2 (by decide) (by decide)⟩

/-- C6: for every terminating run the created file names are exactly
`file_0.txt … file_{fileCount-1}.txt` in creation order, each occurring
exactly once across the whole tree: each iteration names its file with the
current counter and then increments it, and decimal rendering is injective. -/
theorem C6_file_names_exactly_range (cfg : Config) (r : Nat → Nat)
    (oracle : FsOracle) (fuel : Nat) (s : RunState) (out : List String)
    (h : generate cfg r oracle fuel = .success s out) :
    s.files.map (fun f => f.name) = (List.range s.file_number).map mkFileName ∧
    (s.files.map (fun f => f.name)).Nodup := by
  obtain ⟨-, hr, -⟩ := generate_success_spec cfg r oracle fuel s out h
  have hstate : (runLoop cfg r oracle fuel
      ⟨0, 0, [], [FsOp.createDirAll cfg.folderPath], 0⟩).stateOf = some s := by
    rw [hr]; rfl
  have hnames := runLoop_names_inv cfg r oracle fuel _ s (by simp) hstate
  refine ⟨hnames, ?_⟩
  rw [hnames]
  exact List.Nodup.map (fun a b hab => mkFileName_injective a b hab)
    (List.nodup_range _)

theorem C6_witness :
    ∃ s out, generate ⟨["t6"], 10, 0, 4, 4⟩ (fun _ => 0) fsOk 10 = .success s out ∧
      (s.files.map (fun f => f.name) = (List.range s.file_number).map mkFileName ∧
        (s.files.map (fun f => f.name)).Nodup) :=
  ⟨_, _, rfl,
    C6_file_names_exactly_range ⟨["t6"], 10, 0, 4, 4⟩ (fun _ => 0) fsOk 10 _ _ rfl⟩

/-- C8: a size string whose unit suffix is invalid makes `parse_size` fail —
no byte count is produced — with a `SizeParseError` whose message names the
offending character and the set of characters accepted at that position. -/
theorem C8_invalid_unit_error (s : String) (e : UnitError)
    (h : parse_str s = .error (.Unit e)) :
    ∃ msg, parse_size s = .error (.SizeParseError msg) ∧
      msg = "Неверная единица измерения '" ++ String.singleton e.character ++
        "'. Ожидались: " ++ String.mk e.expected_characters ∧
      (∃ a b, msg = a ++ (String.singleton e.character ++ b)) ∧
      (∃ a, msg = a ++ String.mk e.expected_characters) := by
  refine ⟨"Неверная единица измерения '" ++ String.singleton e.character ++
    "'. Ожидались: " ++ String.mk e.expected_characters, ?_, rfl, ?_, ?_⟩
  · simp [parse_size, h, MyError.ofParseError]
  · refine ⟨"Неверная единица измерения '",
      "'. Ожидались: " ++ String.mk e.expected_characters, ?_⟩
    apply String.ext
    simp [List.append_assoc]
  · exact ⟨"Неверная единица измерения '" ++ String.singleton e.character ++
      "'. Ожидались: ", rfl⟩

theorem C8_witness :
    ∃ msg, parse_size "1x" = .error (.SizeParseError msg) ∧
      msg = "Неверная единица измерения '" ++ String.singleton 'x' ++
        "'. Ожидались: " ++ String.mk expectedUnitFirstChars ∧
      (∃ a b, msg = a ++ (String.singleton 'x' ++ b)) ∧
      (∃ a, msg = a ++ String.mk expectedUnitFirstChars) :=
  C8_invalid_unit_error "1x" ⟨'x', expectedUnitFirstChars⟩ (by rfl)

/-- C9 (amended): any filesystem failure is fatal and immediate — the run
stops at the failing operation (it is the last one issued), the message
surfaced to the caller is exactly the underlying io error's own message, and
every file completed before the failure is still recorded (no cleanup).  The
offending path, however, is NOT attached to the surfaced error (see the
counterexample). -/
theorem C9_fs_failure_amended (cfg : Config) (r : Nat → Nat) (oracle : FsOracle)
    (fuel : Nat) (msg : String) (st : RunState)
    (h : generate cfg r oracle fuel = .fsError msg st) :
    (∃ op, oracle op = some msg ∧ st.trace.getLast? = some op) ∧
    st.files.map (fun f => f.name) = (List.range st.file_number).map mkFileName := by
  rcases generate_fsError_spec cfg r oracle fuel msg st h with ⟨horacle, hst⟩ | ⟨-, hr⟩
  · subst hst
    exact ⟨⟨FsOp.createDirAll cfg.folderPath, horacle, rfl⟩, by simp⟩
  · have hstate : (runLoop cfg r oracle fuel
        ⟨0, 0, [], [FsOp.createDirAll cfg.folderPath], 0⟩).stateOf = some st := by
      rw [hr]; rfl
    exact ⟨runLoop_fsError_last cfg r oracle fuel _ st msg hr,
      runLoop_names_inv cfg r oracle fuel _ st (by simp) hstate⟩

theorem C9_witness :
    (∃ op, (fun _ : FsOp => some "boom") op = some "boom" ∧
      ([FsOp.createDirAll ["a"]] : List FsOp).getLast? = some op) ∧
    ([] : List FileRecord).map (fun f => f.name) = (List.range 0).map mkFileName := by
  have h := C9_fs_failure_amended ⟨["a"], 5, 1, 1, 1⟩ (fun _ => 0)
    (fun _ => some "boom") 3 "boom" ⟨0, 0, [], [FsOp.createDirAll ["a"]], 0⟩ rfl
  exact h

/-- C9 is false as stated: the surfaced error does not carry the offending
path.  Two runs failing on different folder paths (`a` vs `b`) surface the
identical error value — just the underlying io message — so the offending
path cannot be recovered from the error by any caller. -/
theorem C9_counterexample :
    (mainRun ⟨some "a", none, some "1kib", none, 1, "1kib", "5kib"⟩ (fun _ => 0)
        (fun _ => some "boom") 3).errMsg = some "boom" ∧
    (mainRun ⟨some "b", none, some "1kib", none, 1, "1kib", "5kib"⟩ (fun _ => 0)
        (fun _ => some "boom") 3).errMsg = some "boom" ∧
    ("a" : String) ≠ "b" :=
  ⟨rfl, rfl, by decide⟩

end BigFolderGen
